import Mathlib

/-!
# NeoPDF: shallow embedding of the grid data model, writer pipeline and readers

This file embeds the NeoPDF grid-container pipeline in Lean 4:

* the grid data model (subgrids with five coordinate axes and a flattened
  value buffer, members with an ordered flavor list, a metadata header);
* the `GridWriter` build state machine, translated from
  `neopdf_capi/src/include/NeoPDF.hpp` (`new_grid`, `add_subgrid`,
  `push_grid`, `compress`);
* the serializer/compressor and the eager and lazy readers.  The Rust
  bodies of the C-API entry points (`neopdf_grid_add_subgrid`,
  `neopdf_grid_compress`, `neopdf_pdf_load_lazy`,
  `neopdf_lazy_iterator_next`, ...) are not part of the C++ tree, so those
  are modelled from the specification, as stated in each doc comment.

Stored doubles and coordinates are modelled as rationals (`ℚ`): the
container format stores them at full precision and is lossless, so the
exact value domain does not matter for any of the properties proved here.
The canonical nesting order of the flattened value buffer is
`[A][alpha_s][kT][x][Q2][flavor]`, the order used by every writer call
site in the tree (`check-writer.c`, `check-writer-oop.cpp`,
`check-tmd.cpp`).
-/

namespace NeoPDF

/-- Discriminated result/error codes crossing the boundary
(`NeopdfResult` in the C API; the taxonomy of spec §7). -/
inductive NeopdfError where
  | shapeMismatch
  | emptyAxis
  | duplicateFlavor
  | emptyMember
  | emptyCollection
  | invalidState
  | encodeError
  | ioError
  deriving DecidableEq, Repr

/-- One subgrid: five coordinate axes plus the flattened value buffer.
Field names follow the `neopdf_grid_add_subgrid` C signature. -/
structure SubGrid where
  nucleons : List ℚ
  alphas : List ℚ
  kts : List ℚ
  xs : List ℚ
  q2s : List ℚ
  grid_data : List ℚ
  deriving DecidableEq, Repr

/-- A finalized grid member: its ordered flavor ids and its subgrids. -/
structure Grid where
  flavors : List ℤ
  subgrids : List SubGrid
  deriving DecidableEq, Repr

/-- The metadata header (`NeoPDFMetaData`), restricted to the fields that
participate in the properties below. -/
structure MetaData where
  num_members : ℕ
  x_min : ℚ
  x_max : ℚ
  q_min : ℚ
  q_max : ℚ
  flavors : List ℤ
  hadron_pid : ℤ
  deriving DecidableEq, Repr

/-- Modelled from the spec (§4.1): the shape validation performed by
`neopdf_grid_add_subgrid`, whose Rust body is not in the C++ tree.  A
zero-length axis is `EmptyAxis`; a values buffer whose length is not the
product of the axis lengths times the flavor count is `ShapeMismatch`. -/
def checkSubgridShape (sg : SubGrid) (numFlavors : ℕ) : Except NeopdfError Unit :=
  if sg.nucleons.length = 0 ∨ sg.alphas.length = 0 ∨ sg.kts.length = 0 ∨
      sg.xs.length = 0 ∨ sg.q2s.length = 0 then
    .error .emptyAxis
  else if sg.grid_data.length ≠
      sg.nucleons.length * sg.alphas.length * sg.kts.length *
      sg.xs.length * sg.q2s.length * numFlavors then
    .error .shapeMismatch
  else
    .ok ()

/-- Modelled from the spec (§4.2): the flavor validation performed by
`neopdf_grid_set_flavors` (Rust body not in the C++ tree): empty or
duplicate id lists are rejected. -/
def checkFlavors (flavors : List ℤ) : Except NeopdfError Unit :=
  if flavors.isEmpty then .error .duplicateFlavor
  else if flavors.Nodup then .ok ()
  else .error .duplicateFlavor

/-- The `GridWriter` state (`NeoPDF.hpp`): the collection of committed
members plus the member currently being built (`current_grid`, absent when
no grid is started or the last one was pushed).  A member under
construction holds its subgrids; flavors are attached by `push_grid`. -/
structure GridWriter where
  collection : List Grid
  current : Option (List SubGrid)
  deriving DecidableEq, Repr

/-- `GridWriter::GridWriter()`: fresh writer, empty collection, no grid
started. -/
def GridWriter.init : GridWriter := ⟨[], none⟩

/-- `GridWriter::new_grid()`: starts a new member.  A previous uncommitted
grid is freed and discarded. -/
def GridWriter.new_grid (w : GridWriter) : GridWriter :=
  { w with current := some [] }

/-- `GridWriter::add_subgrid(...)`: fails `InvalidState` when no grid is
started ("No grid started. Call new_grid() first."), otherwise validates
the subgrid shape (`checkSubgridShape`) and appends it to the current
member.  On any failure the writer is unchanged. -/
def GridWriter.add_subgrid (w : GridWriter) (sg : SubGrid) (numFlavors : ℕ) :
    Except NeopdfError Unit × GridWriter :=
  match w.current with
  | none => (.error .invalidState, w)
  | some sgs =>
    match checkSubgridShape sg numFlavors with
    | .error e => (.error e, w)
    | .ok _ => (.ok (), { w with current := some (sgs ++ [sg]) })

/-- `GridWriter::push_grid(flavors)`: fails `InvalidState` when no grid is
started ("No grid to commit."); otherwise sets the flavors
(`neopdf_grid_set_flavors`, dropping the grid on failure, as the C++ code
frees `current_grid`), rejects a member with zero subgrids (`EmptyMember`,
spec §4.2, likewise dropping the grid), and on success appends the
finalized member to the collection and clears `current_grid`. -/
def GridWriter.push_grid (w : GridWriter) (flavors : List ℤ) :
    Except NeopdfError Unit × GridWriter :=
  match w.current with
  | none => (.error .invalidState, w)
  | some sgs =>
    match checkFlavors flavors with
    | .error e => (.error e, { w with current := none })
    | .ok _ =>
      if sgs.isEmpty then
        (.error .emptyMember, { w with current := none })
      else
        (.ok (), { collection := w.collection ++ [⟨flavors, sgs⟩], current := none })

/-! ## Serializer / compressor

Modelled from the spec (§4.3, §6): the Rust body of
`neopdf_grid_compress` and of the container decoder is not in the C++
tree.  The container is one stream holding the metadata followed by the
members in sequence: per member its flavor list, then each subgrid's five
axis sequences and its flattened value buffer, at full precision.  The
byte-level compression pass is a pluggable lossless transform, modelled as
the identity on the token stream. -/

/-- One token of the serialized stream: a length, a flavor id, or a
stored double. -/
inductive Tok where
  | nat (n : ℕ)
  | int (z : ℤ)
  | rat (q : ℚ)
  deriving DecidableEq, Repr

/-- Serializes a list of doubles, length-prefixed. -/
def encodeRatList (qs : List ℚ) : List Tok :=
  .nat qs.length :: qs.map .rat

/-- Serializes a list of flavor ids, length-prefixed. -/
def encodeIntList (zs : List ℤ) : List Tok :=
  .nat zs.length :: zs.map .int

/-- Serializes one subgrid: the five axes then the value buffer. -/
def encodeSubGrid (sg : SubGrid) : List Tok :=
  encodeRatList sg.nucleons ++ encodeRatList sg.alphas ++ encodeRatList sg.kts ++
    encodeRatList sg.xs ++ encodeRatList sg.q2s ++ encodeRatList sg.grid_data

/-- Serializes one member: its flavor list, then its subgrids,
count-prefixed. -/
def encodeGrid (g : Grid) : List Tok :=
  encodeIntList g.flavors ++ .nat g.subgrids.length ::
    (g.subgrids.map encodeSubGrid).flatten

/-- Serializes the metadata header. -/
def encodeMetaData (m : MetaData) : List Tok :=
  [.nat m.num_members, .rat m.x_min, .rat m.x_max, .rat m.q_min, .rat m.q_max] ++
    encodeIntList m.flavors ++ [.int m.hadron_pid]

/-- Serializes the whole container: metadata, then the members in
sequence, count-prefixed. -/
def encodeContainer (m : MetaData) (gs : List Grid) : List Tok :=
  encodeMetaData m ++ .nat gs.length :: (gs.map encodeGrid).flatten

/-- Reads one length token. -/
def parseNat : List Tok → Option (ℕ × List Tok)
  | .nat n :: ts => some (n, ts)
  | _ => none

/-- Reads one flavor-id token. -/
def parseInt : List Tok → Option (ℤ × List Tok)
  | .int z :: ts => some (z, ts)
  | _ => none

/-- Reads one stored double. -/
def parseRat : List Tok → Option (ℚ × List Tok)
  | .rat q :: ts => some (q, ts)
  | _ => none

/-- Reads `n` stored doubles. -/
def parseRats : ℕ → List Tok → Option (List ℚ × List Tok)
  | 0, ts => some ([], ts)
  | n + 1, ts => do
    let (q, ts) ← parseRat ts
    let (qs, ts) ← parseRats n ts
    some (q :: qs, ts)

/-- Reads `n` flavor ids. -/
def parseInts : ℕ → List Tok → Option (List ℤ × List Tok)
  | 0, ts => some ([], ts)
  | n + 1, ts => do
    let (z, ts) ← parseInt ts
    let (zs, ts) ← parseInts n ts
    some (z :: zs, ts)

/-- Reads a length-prefixed list of doubles. -/
def parseRatList (ts : List Tok) : Option (List ℚ × List Tok) := do
  let (n, ts) ← parseNat ts
  parseRats n ts

/-- Reads a length-prefixed list of flavor ids. -/
def parseIntList (ts : List Tok) : Option (List ℤ × List Tok) := do
  let (n, ts) ← parseNat ts
  parseInts n ts

/-- Reads one subgrid. -/
def parseSubGrid (ts : List Tok) : Option (SubGrid × List Tok) := do
  let (nucleons, ts) ← parseRatList ts
  let (alphas, ts) ← parseRatList ts
  let (kts, ts) ← parseRatList ts
  let (xs, ts) ← parseRatList ts
  let (q2s, ts) ← parseRatList ts
  let (grid_data, ts) ← parseRatList ts
  some (⟨nucleons, alphas, kts, xs, q2s, grid_data⟩, ts)

/-- Reads `n` subgrids. -/
def parseSubGrids : ℕ → List Tok → Option (List SubGrid × List Tok)
  | 0, ts => some ([], ts)
  | n + 1, ts => do
    let (sg, ts) ← parseSubGrid ts
    let (sgs, ts) ← parseSubGrids n ts
    some (sg :: sgs, ts)

/-- Reads one member. -/
def parseGrid (ts : List Tok) : Option (Grid × List Tok) := do
  let (flavors, ts) ← parseIntList ts
  let (n, ts) ← parseNat ts
  let (sgs, ts) ← parseSubGrids n ts
  some (⟨flavors, sgs⟩, ts)

/-- Reads `n` members. -/
def parseGrids : ℕ → List Tok → Option (List Grid × List Tok)
  | 0, ts => some ([], ts)
  | n + 1, ts => do
    let (g, ts) ← parseGrid ts
    let (gs, ts) ← parseGrids n ts
    some (g :: gs, ts)

/-- Reads the metadata header. -/
def parseMetaData (ts : List Tok) : Option (MetaData × List Tok) := do
  let (num_members, ts) ← parseNat ts
  let (x_min, ts) ← parseRat ts
  let (x_max, ts) ← parseRat ts
  let (q_min, ts) ← parseRat ts
  let (q_max, ts) ← parseRat ts
  let (flavors, ts) ← parseIntList ts
  let (hadron_pid, ts) ← parseInt ts
  some (⟨num_members, x_min, x_max, q_min, q_max, flavors, hadron_pid⟩, ts)

/-- Decodes a whole container stream; fails on any malformed or trailing
input.  This is what distinguishes a recognized container file from any
other file. -/
def decodeContainer (ts : List Tok) : Option (MetaData × List Grid) := do
  let (m, ts) ← parseMetaData ts
  let (n, ts) ← parseNat ts
  let (gs, ts) ← parseGrids n ts
  if ts.isEmpty then some (m, gs) else none

/-- Modelled from the spec (§4.3): `neopdf_grid_compress(collection,
meta, path)`.  Fails `EmptyCollectionError` on an empty collection and
`EncodeError` when `meta.num_members` differs from the collection's member
count; otherwise produces the serialized container stream. -/
def neopdf_grid_compress (meta : MetaData) (collection : List Grid) :
    Except NeopdfError (List Tok) :=
  if collection.isEmpty then .error .emptyCollection
  else if meta.num_members ≠ collection.length then .error .encodeError
  else .ok (encodeContainer meta collection)

/-- `GridWriter::compress(metadata, output_path)`: if a grid was being
built but not committed, it is freed and the call fails; otherwise the
committed collection is serialized by `neopdf_grid_compress`. -/
def GridWriter.compress (w : GridWriter) (meta : MetaData) :
    Except NeopdfError (List Tok) × GridWriter :=
  match w.current with
  | some _ => (.error .invalidState, { w with current := none })
  | none => (neopdf_grid_compress meta w.collection, w)

/-! ## Readers -/

/-- Modelled from the spec (§4.4): `neopdf_pdf_load_all(path)` — eager
reader, decoding the whole container.  Returns the metadata and every
member, or `none` when the input is not a recognized container. -/
def neopdf_pdf_load_all (ts : List Tok) : Option (MetaData × List Grid) :=
  decodeContainer ts

/-- The lazy iterator state (`NeoPDFLazyIterator`): the decoded member
sequence and a forward-only cursor. -/
structure NeoPDFLazyIterator where
  members : List Grid
  cursor : ℕ
  deriving DecidableEq, Repr

/-- Modelled from the spec (§4.5): `neopdf_pdf_load_lazy(path)` — yields
an explicit absent value (`none`) when the input is not a recognized
container, otherwise an iterator positioned before the first member. -/
def neopdf_pdf_load_lazy (ts : List Tok) : Option NeoPDFLazyIterator :=
  (decodeContainer ts).map fun p => ⟨p.2, 0⟩

/-- Modelled from the spec (§4.5): `neopdf_lazy_iterator_next(iter)` —
decompresses and yields the member at the cursor (or the end sentinel
`none` once exhausted) and advances the cursor. -/
def neopdf_lazy_iterator_next (it : NeoPDFLazyIterator) :
    Option Grid × NeoPDFLazyIterator :=
  (it.members.get? it.cursor, ⟨it.members, it.cursor + 1⟩)

/-- Runs the lazy iterator `k` steps and returns the result of the
`(k+1)`-th `next()` call. -/
def lazyNth (it : NeoPDFLazyIterator) : ℕ → Option Grid
  | 0 => (neopdf_lazy_iterator_next it).1
  | k + 1 => lazyNth (neopdf_lazy_iterator_next it).2 k

/-- The C++ `NeoPDFLazy` wrapper object (`NeoPDF.hpp`): it owns at most
one raw iterator handle (`raw_iter`, null after a move). -/
structure NeoPDFLazy where
  raw_iter : Option NeoPDFLazyIterator
  deriving DecidableEq, Repr

/-- `NeoPDFLazy::next()`: when the handle is absent the end sentinel is
returned without touching any resource; otherwise the raw iterator is
advanced. -/
def NeoPDFLazy.next (o : NeoPDFLazy) : Option Grid × NeoPDFLazy :=
  match o.raw_iter with
  | none => (none, o)
  | some it =>
    let r := neopdf_lazy_iterator_next it
    (r.1, ⟨some r.2⟩)

/-- `NeoPDFLazy(NeoPDFLazy&&)`: move construction — the destination takes
the handle and the source is left with an absent handle.  Returns
(destination, source after the move). -/
def NeoPDFLazy.moveCtor (src : NeoPDFLazy) : NeoPDFLazy × NeoPDFLazy :=
  (⟨src.raw_iter⟩, ⟨none⟩)

/-- `NeoPDFLazy::operator=(NeoPDFLazy&&)`: move assignment — the
destination frees its own handle, takes the source's, and the source is
left with an absent handle.  Returns (destination, source after the
move). -/
def NeoPDFLazy.moveAssign (_dst src : NeoPDFLazy) : NeoPDFLazy × NeoPDFLazy :=
  (⟨src.raw_iter⟩, ⟨none⟩)

/-! ## Evaluation

The numerical interpolation kernel is outside the core (spec §1, §8
Scenario A): at a grid knot the interpolated value is the stored sample.
Evaluation is therefore modelled at knots: the canonical N-D entry point
looks every coordinate up in its axis and reads the flattened buffer in
the canonical `[A][alpha_s][kT][x][Q2][flavor]` nesting order; the 2-D
convenience form is the separate two-coordinate lookup that assumes the
default leading axes. -/

/-- The flattened-buffer index of the sample at axis indices
`(ia, is_, ik, ix, iq)` and flavor index `f`, in the canonical
nesting order. -/
def flatIndex (sg : SubGrid) (numFlavors ia is_ ik ix iq f : ℕ) : ℕ :=
  ((((ia * sg.alphas.length + is_) * sg.kts.length + ik) * sg.xs.length + ix) *
      sg.q2s.length + iq) * numFlavors + f

/-- Modelled from the spec: canonical N-D knot evaluation on one subgrid.
Every coordinate of the ordered vector `[A, alpha_s, kT, x, Q2]` is
looked up in its axis; absence of any coordinate (out of range /
off-knot) yields `none`. -/
def SubGrid.evalND (sg : SubGrid) (numFlavors f : ℕ) (a s k x q2 : ℚ) :
    Option ℚ := do
  let ia ← sg.nucleons.indexOf? a
  let is_ ← sg.alphas.indexOf? s
  let ik ← sg.kts.indexOf? k
  let ix ← sg.xs.indexOf? x
  let iq ← sg.q2s.indexOf? q2
  sg.grid_data.get? (flatIndex sg numFlavors ia is_ ik ix iq f)

/-- Modelled from the spec: the 2-D knot evaluation on one subgrid — its
own two-coordinate lookup, reading the buffer at the offset of the
leading default (index-0) positions of the A, alpha_s and kT axes. -/
def SubGrid.eval2D (sg : SubGrid) (numFlavors f : ℕ) (x q2 : ℚ) :
    Option ℚ := do
  let ix ← sg.xs.indexOf? x
  let iq ← sg.q2s.indexOf? q2
  sg.grid_data.get? ((ix * sg.q2s.length + iq) * numFlavors + f)

/-- Returns the first `some` produced by `f` over the list. -/
def firstSome (f : SubGrid → Option ℚ) : List SubGrid → Option ℚ
  | [] => none
  | sg :: sgs =>
    match f sg with
    | some v => some v
    | none => firstSome f sgs

/-- Modelled from the spec (§4.4): `neopdf_pdf_xfxq2_nd(pdf, pid,
coords)` — the canonical N-D entry point.  The pid is looked up in the
member's flavor list; the first subgrid containing the coordinate vector
supplies the value. -/
def Grid.xfxQ2_ND (g : Grid) (pid : ℤ) (a s k x q2 : ℚ) : Option ℚ := do
  let f ← g.flavors.indexOf? pid
  firstSome (fun sg => sg.evalND g.flavors.length f a s k x q2) g.subgrids

/-- Modelled from the spec (§4.4): `neopdf_pdf_xfxq2(pdf, pid, x, q2)` —
the 2-D convenience form, written here as an independent two-coordinate
evaluation so that its agreement with the canonical N-D form is a
theorem, not a definition. -/
def Grid.xfxQ2 (g : Grid) (pid : ℤ) (x q2 : ℚ) : Option ℚ := do
  let f ← g.flavors.indexOf? pid
  firstSome (fun sg => sg.eval2D g.flavors.length f x q2) g.subgrids

/-! ## Force-positive policy -/

/-- The per-member clipping policy (`neopdf_force_positive`, spec §4.6):
no clipping (the default), clip negative results to zero, clip small
results to zero. -/
inductive ForcePositive where
  | noClipping
  | clipNegative
  | clipSmall
  deriving DecidableEq, Repr

/-- A loaded member handle (`NeoPDFWrapper`): the decoded member plus the
mutable force-positive policy of the handle. -/
structure PDFHandle where
  grid : Grid
  force_positive : ForcePositive
  deriving DecidableEq, Repr

/-- Modelled from the spec (§4.6): `neopdf_pdf_set_force_positive` — the
single-handle setter. -/
def neopdf_pdf_set_force_positive (h : PDFHandle) (opt : ForcePositive) :
    PDFHandle :=
  { h with force_positive := opt }

/-- Modelled from the spec (§4.6): `neopdf_pdf_is_force_positive` — the
per-handle getter. -/
def neopdf_pdf_is_force_positive (h : PDFHandle) : ForcePositive :=
  h.force_positive

/-- Modelled from the spec (§4.6): `neopdf_pdf_set_force_positive_members`
— the broadcast setter over an array of member handles. -/
def neopdf_pdf_set_force_positive_members (hs : List PDFHandle)
    (opt : ForcePositive) : List PDFHandle :=
  hs.map (fun h => neopdf_pdf_set_force_positive h opt)

/-! ## Round-trip lemmas for the serializer -/

theorem parseRats_encode (qs : List ℚ) (r : List Tok) :
    parseRats qs.length (qs.map .rat ++ r) = some (qs, r) := by
  induction qs with
  | nil => rfl
  | cons q qs ih => simp [parseRats, parseRat, ih]

theorem parseInts_encode (zs : List ℤ) (r : List Tok) :
    parseInts zs.length (zs.map .int ++ r) = some (zs, r) := by
  induction zs with
  | nil => rfl
  | cons z zs ih => simp [parseInts, parseInt, ih]

theorem parseRatList_encode (qs : List ℚ) (r : List Tok) :
    parseRatList (encodeRatList qs ++ r) = some (qs, r) := by
  simp [parseRatList, encodeRatList, parseNat, parseRats_encode]

theorem parseIntList_encode (zs : List ℤ) (r : List Tok) :
    parseIntList (encodeIntList zs ++ r) = some (zs, r) := by
  simp [parseIntList, encodeIntList, parseNat, parseInts_encode]

theorem parseSubGrid_encode (sg : SubGrid) (r : List Tok) :
    parseSubGrid (encodeSubGrid sg ++ r) = some (sg, r) := by
  simp [parseSubGrid, encodeSubGrid, List.append_assoc, parseRatList_encode]

theorem parseSubGrids_encode (sgs : List SubGrid) (r : List Tok) :
    parseSubGrids sgs.length ((sgs.map encodeSubGrid).flatten ++ r) =
      some (sgs, r) := by
  induction sgs with
  | nil => rfl
  | cons sg sgs ih =>
    simp [parseSubGrids, List.append_assoc, parseSubGrid_encode, ih]

theorem parseGrid_encode (g : Grid) (r : List Tok) :
    parseGrid (encodeGrid g ++ r) = some (g, r) := by
  simp [parseGrid, encodeGrid, List.append_assoc, parseIntList_encode,
    parseNat, parseSubGrids_encode]

theorem parseGrids_encode (gs : List Grid) (r : List Tok) :
    parseGrids gs.length ((gs.map encodeGrid).flatten ++ r) = some (gs, r) := by
  induction gs with
  | nil => rfl
  | cons g gs ih =>
    simp [parseGrids, List.append_assoc, parseGrid_encode, ih]

theorem parseMetaData_encode (m : MetaData) (r : List Tok) :
    parseMetaData (encodeMetaData m ++ r) = some (m, r) := by
  simp [parseMetaData, encodeMetaData, List.append_assoc, parseNat, parseRat,
    parseIntList_encode, parseInt]

/-- The container serializer round-trips: decoding an encoded container
recovers the metadata and every member exactly. -/
theorem decodeContainer_encodeContainer (m : MetaData) (gs : List Grid) :
    decodeContainer (encodeContainer m gs) = some (m, gs) := by
  have h : encodeContainer m gs =
      encodeMetaData m ++ (Tok.nat gs.length :: ((gs.map encodeGrid).flatten ++ [])) := by
    simp [encodeContainer]
  rw [decodeContainer, h, parseMetaData_encode]
  have h2 := parseGrids_encode gs []
  rw [List.append_nil] at h2
  simp [parseNat, h2]

/-! ## Concrete sample data -/

/-- A concrete subgrid: singleton A, alpha_s and kT axes, a 2×2 (x, Q2)
block, two flavors, buffer length 1·1·1·2·2·2 = 8. -/
def sampleSubGrid : SubGrid :=
  ⟨[1], [1], [0], [3, 5], [2, 10], [1, 2, 3, 4, 5, 6, 7, 8]⟩

/-- A concrete member holding `sampleSubGrid` with flavors gluon and
down. -/
def sampleGrid : Grid := ⟨[21, 1], [sampleSubGrid]⟩

/-- A concrete metadata header for a one-member collection. -/
def sampleMeta : MetaData := ⟨1, 1/100, 1, 1, 10, [21, 1], 2212⟩

/-! ## Helper lemmas -/

theorem indexOf?_head {l : List ℚ} {a : ℚ} (h : l.head? = some a) :
    l.indexOf? a = some 0 := by
  cases l with
  | nil => simp at h
  | cons b t =>
    simp at h
    subst h
    simp [List.indexOf?, List.findIdx?]

theorem lazyNth_eq_get (ms : List Grid) (c k : ℕ) :
    lazyNth ⟨ms, c⟩ k = ms.get? (c + k) := by
  induction k generalizing c with
  | zero => simp [lazyNth, neopdf_lazy_iterator_next]
  | succ k ih =>
    have h := ih (c + 1)
    simp only [lazyNth, neopdf_lazy_iterator_next] at h ⊢
    rw [h]
    congr 1
    omega

/-! ## Claims -/

/-- **C3.** `addSubgrid` with axis lengths (a, b, c, d, e) and flavor
count f succeeds exactly when the values buffer has length a·b·c·d·e·f;
a zero-length axis is rejected with `EmptyAxis`, any other wrong buffer
length with `ShapeMismatch`, and every rejection leaves the writer (hence
the member under construction and the collection) unchanged. -/
theorem add_subgrid_of_emptyAxis (w : GridWriter) (sgs : List SubGrid)
    (sg : SubGrid) (f : ℕ) (hw : w.current = some sgs)
    (he : sg.nucleons.length = 0 ∨ sg.alphas.length = 0 ∨ sg.kts.length = 0 ∨
      sg.xs.length = 0 ∨ sg.q2s.length = 0) :
    w.add_subgrid sg f = (.error .emptyAxis, w) := by
  simp only [GridWriter.add_subgrid, hw, checkSubgridShape]
  rw [if_pos he]

theorem add_subgrid_of_shapeMismatch (w : GridWriter) (sgs : List SubGrid)
    (sg : SubGrid) (f : ℕ) (hw : w.current = some sgs)
    (he : ¬(sg.nucleons.length = 0 ∨ sg.alphas.length = 0 ∨ sg.kts.length = 0 ∨
      sg.xs.length = 0 ∨ sg.q2s.length = 0))
    (hm : sg.grid_data.length ≠
      sg.nucleons.length * sg.alphas.length * sg.kts.length *
        sg.xs.length * sg.q2s.length * f) :
    w.add_subgrid sg f = (.error .shapeMismatch, w) := by
  simp only [GridWriter.add_subgrid, hw, checkSubgridShape]
  rw [if_neg he, if_pos hm]

theorem add_subgrid_of_ok (w : GridWriter) (sgs : List SubGrid)
    (sg : SubGrid) (f : ℕ) (hw : w.current = some sgs)
    (he : ¬(sg.nucleons.length = 0 ∨ sg.alphas.length = 0 ∨ sg.kts.length = 0 ∨
      sg.xs.length = 0 ∨ sg.q2s.length = 0))
    (hm : sg.grid_data.length =
      sg.nucleons.length * sg.alphas.length * sg.kts.length *
        sg.xs.length * sg.q2s.length * f) :
    w.add_subgrid sg f = (.ok (), { w with current := some (sgs ++ [sg]) }) := by
  simp only [GridWriter.add_subgrid, hw, checkSubgridShape]
  rw [if_neg he, if_neg (by simp [hm])]

theorem add_subgrid_shape_validation (w : GridWriter) (sgs : List SubGrid)
    (sg : SubGrid) (f : ℕ) (hw : w.current = some sgs) :
    ((w.add_subgrid sg f).1 = .ok () ↔
      (sg.nucleons.length ≠ 0 ∧ sg.alphas.length ≠ 0 ∧ sg.kts.length ≠ 0 ∧
        sg.xs.length ≠ 0 ∧ sg.q2s.length ≠ 0) ∧
      sg.grid_data.length =
        sg.nucleons.length * sg.alphas.length * sg.kts.length *
          sg.xs.length * sg.q2s.length * f) ∧
    ((sg.nucleons.length = 0 ∨ sg.alphas.length = 0 ∨ sg.kts.length = 0 ∨
        sg.xs.length = 0 ∨ sg.q2s.length = 0) →
      (w.add_subgrid sg f).1 = .error .emptyAxis) ∧
    ((sg.nucleons.length ≠ 0 ∧ sg.alphas.length ≠ 0 ∧ sg.kts.length ≠ 0 ∧
        sg.xs.length ≠ 0 ∧ sg.q2s.length ≠ 0) →
      sg.grid_data.length ≠
        sg.nucleons.length * sg.alphas.length * sg.kts.length *
          sg.xs.length * sg.q2s.length * f →
      (w.add_subgrid sg f).1 = .error .shapeMismatch) ∧
    (∀ e, (w.add_subgrid sg f).1 = .error e → (w.add_subgrid sg f).2 = w) := by
  by_cases he : sg.nucleons.length = 0 ∨ sg.alphas.length = 0 ∨
      sg.kts.length = 0 ∨ sg.xs.length = 0 ∨ sg.q2s.length = 0
  · rw [add_subgrid_of_emptyAxis w sgs sg f hw he]
    exact ⟨⟨fun h => by simp at h, fun ⟨hne, _⟩ => absurd he (by tauto)⟩,
      fun _ => rfl, fun hne _ => absurd he (by tauto), fun e _ => rfl⟩
  · by_cases hm : sg.grid_data.length =
        sg.nucleons.length * sg.alphas.length * sg.kts.length *
          sg.xs.length * sg.q2s.length * f
    · rw [add_subgrid_of_ok w sgs sg f hw he hm]
      exact ⟨⟨fun _ => ⟨by tauto, hm⟩, fun _ => rfl⟩,
        fun h0 => absurd h0 he, fun _ hm0 => absurd hm hm0,
        fun e h => by simp at h⟩
    · rw [add_subgrid_of_shapeMismatch w sgs sg f hw he hm]
      exact ⟨⟨fun h => by simp at h, fun ⟨_, hm0⟩ => absurd hm0 hm⟩,
        fun h0 => absurd h0 he, fun _ _ => rfl, fun e _ => rfl⟩

/-- Witness for C3 at a concrete writer: a subgrid with an empty x-axis
is rejected with `EmptyAxis`, and rejection leaves the writer
unchanged. -/
theorem add_subgrid_shape_validation_witness :
    ((GridWriter.add_subgrid ⟨[], some []⟩ ⟨[1], [1], [1], [], [2], [3]⟩ 1).1 =
      .error .emptyAxis) ∧
    ((GridWriter.add_subgrid ⟨[], some []⟩ ⟨[1], [1], [1], [], [2], [3]⟩ 1).2 =
      ⟨[], some []⟩) := by
  have h := add_subgrid_shape_validation ⟨[], some []⟩ []
    ⟨[1], [1], [1], [], [2], [3]⟩ 1 rfl
  have he := h.2.1 (by decide)
  exact ⟨he, h.2.2.2 _ he⟩

/-- **C5.** After a successful `push_grid` (the unique finalize step,
which attaches the flavor list to the member built so far and commits it
to the collection), the writer holds no member under construction: any
later `add_subgrid` fails `InvalidState` and leaves the writer — member
and collection — unchanged, and a second finalize fails `InvalidState`
as well. -/
theorem push_grid_finalizes_once (w w' : GridWriter) (fl : List ℤ)
    (h : w.push_grid fl = (.ok (), w')) :
    (∃ sgs, w.current = some sgs ∧
      w'.collection = w.collection ++ [⟨fl, sgs⟩]) ∧
    w'.current = none ∧
    (∀ sg f, w'.add_subgrid sg f = (.error .invalidState, w')) ∧
    (∀ fl2, (w'.push_grid fl2).1 = .error .invalidState) := by
  cases hcur : w.current with
  | none => simp [GridWriter.push_grid, hcur] at h
  | some sgs =>
    simp only [GridWriter.push_grid, hcur] at h
    cases hcf : checkFlavors fl with
    | error e => rw [hcf] at h; simp at h
    | ok u =>
      rw [hcf] at h
      by_cases hemp : sgs.isEmpty
      · rw [if_pos hemp] at h; simp at h
      · rw [if_neg hemp] at h
        have hw' : w' = ⟨w.collection ++ [⟨fl, sgs⟩], none⟩ := by
          have := congrArg Prod.snd h
          simpa using this.symm
        subst hw'
        exact ⟨⟨sgs, rfl, rfl⟩, rfl, fun sg f => rfl, fun fl2 => rfl⟩

/-- Witness for C5 at a concrete writer: pushing a one-subgrid member
with flavor list `[21]` succeeds, after which `add_subgrid` fails
`InvalidState` without mutating the writer, and a second `push_grid`
fails `InvalidState`. -/
theorem push_grid_finalizes_once_witness :
    (∃ sgs, (GridWriter.mk [] (some [sampleSubGrid])).current = some sgs ∧
      (GridWriter.mk [⟨[21], [sampleSubGrid]⟩] none).collection =
        (GridWriter.mk [] (some [sampleSubGrid])).collection ++ [⟨[21], sgs⟩]) ∧
    (GridWriter.mk [⟨[21], [sampleSubGrid]⟩] none).current = none ∧
    (∀ sg f, (GridWriter.mk [⟨[21], [sampleSubGrid]⟩] none).add_subgrid sg f =
      (.error .invalidState, GridWriter.mk [⟨[21], [sampleSubGrid]⟩] none)) ∧
    (∀ fl2, ((GridWriter.mk [⟨[21], [sampleSubGrid]⟩] none).push_grid fl2).1 =
      .error .invalidState) :=
  push_grid_finalizes_once (GridWriter.mk [] (some [sampleSubGrid]))
    (GridWriter.mk [⟨[21], [sampleSubGrid]⟩] none) [21] (by rfl)

/-- **C7.** `compress` fails `EmptyCollectionError` on an empty
collection, fails `EncodeError` when `metaData.num_members` differs from
the member count of a nonempty collection, and succeeds exactly when the
collection is nonempty and `num_members` equals its member count. -/
theorem compress_member_count_check (meta : MetaData) (coll : List Grid) :
    (coll = [] → neopdf_grid_compress meta coll = .error .emptyCollection) ∧
    (coll ≠ [] → meta.num_members ≠ coll.length →
      neopdf_grid_compress meta coll = .error .encodeError) ∧
    ((∃ ts, neopdf_grid_compress meta coll = .ok ts) ↔
      coll ≠ [] ∧ meta.num_members = coll.length) := by
  refine ⟨fun h => by simp [neopdf_grid_compress, h],
    fun h1 h2 => by simp [neopdf_grid_compress, List.isEmpty_iff, h1, h2], ?_, ?_⟩
  · rintro ⟨ts, hts⟩
    by_cases h1 : coll = []
    · simp [neopdf_grid_compress, h1] at hts
    · by_cases h2 : meta.num_members = coll.length
      · exact ⟨h1, h2⟩
      · simp [neopdf_grid_compress, List.isEmpty_iff, h1, h2] at hts
  · rintro ⟨h1, h2⟩
    exact ⟨encodeContainer meta coll,
      by simp [neopdf_grid_compress, List.isEmpty_iff, h1, h2]⟩

/-- Witness for C7 at concrete inputs: the empty collection is rejected
with `EmptyCollectionError`, a one-member collection whose metadata
declares two members is rejected with `EncodeError`, and a one-member
collection whose metadata declares one member compresses
successfully. -/
theorem compress_member_count_check_witness :
    neopdf_grid_compress sampleMeta [] = .error .emptyCollection ∧
    neopdf_grid_compress ⟨2, 1/100, 1, 1, 10, [21, 1], 2212⟩ [sampleGrid] =
      .error .encodeError ∧
    (∃ ts, neopdf_grid_compress sampleMeta [sampleGrid] = .ok ts) :=
  ⟨(compress_member_count_check sampleMeta []).1 rfl,
    (compress_member_count_check ⟨2, 1/100, 1, 1, 10, [21, 1], 2212⟩
      [sampleGrid]).2.1 (by decide) (by decide),
    (compress_member_count_check sampleMeta [sampleGrid]).2.2.mpr
      ⟨by decide, by decide⟩⟩

/-- **C9.** A started but uncommitted member is never written into the
container: `compress` with a pending grid fails after discarding it
(`current` is cleared), `new_grid` over a pending grid discards it
(fresh empty member, collection untouched), and when `compress` succeeds
the serialized container decodes to exactly the committed members. -/
theorem uncommitted_grid_never_written (w : GridWriter) (meta : MetaData) :
    (∀ g, w.current = some g →
      w.compress meta = (.error .invalidState, { w with current := none }) ∧
      w.new_grid.collection = w.collection ∧ w.new_grid.current = some []) ∧
    (∀ ts w', w.compress meta = (.ok ts, w') →
      w.current = none ∧ w' = w ∧
      decodeContainer ts = some (meta, w.collection)) := by
  constructor
  · intro g hcur
    refine ⟨?_, rfl, rfl⟩
    simp [GridWriter.compress, hcur]
  · intro ts w' h
    cases hcur : w.current with
    | some g => simp [GridWriter.compress, hcur] at h
    | none =>
      simp only [GridWriter.compress, hcur] at h
      have hfst := congrArg Prod.fst h
      have hsnd := congrArg Prod.snd h
      simp only at hfst hsnd
      refine ⟨rfl, hsnd.symm, ?_⟩
      by_cases h1 : w.collection.isEmpty
      · simp [neopdf_grid_compress, h1] at hfst
      · by_cases h2 : meta.num_members = w.collection.length
        · have : ts = encodeContainer meta w.collection := by
            simp [neopdf_grid_compress, h1, h2] at hfst
            exact hfst.symm
          rw [this, decodeContainer_encodeContainer]
        · simp [neopdf_grid_compress, h1, h2] at hfst

/-- Witness for C9 at a concrete writer: with a pending uncommitted grid,
`compress` fails and discards it while `new_grid` restarts fresh; and a
successful `compress` of one committed member yields a container that
decodes to exactly that member. -/
theorem uncommitted_grid_never_written_witness :
    ((GridWriter.mk [sampleGrid] (some [])).compress sampleMeta =
      (.error .invalidState, GridWriter.mk [sampleGrid] none) ∧
     (GridWriter.mk [sampleGrid] (some [])).new_grid.collection =
       (GridWriter.mk [sampleGrid] (some [])).collection ∧
     (GridWriter.mk [sampleGrid] (some [])).new_grid.current = some []) ∧
    ((GridWriter.mk [sampleGrid] none).current = none ∧
     GridWriter.mk [sampleGrid] none = GridWriter.mk [sampleGrid] none ∧
     decodeContainer (encodeContainer sampleMeta [sampleGrid]) =
       some (sampleMeta, [sampleGrid])) :=
  ⟨(uncommitted_grid_never_written (GridWriter.mk [sampleGrid] (some []))
      sampleMeta).1 [] rfl,
    (uncommitted_grid_never_written (GridWriter.mk [sampleGrid] none)
      sampleMeta).2 (encodeContainer sampleMeta [sampleGrid])
      (GridWriter.mk [sampleGrid] none) (by rfl)⟩

/-- **C10.** `next()` on a lazy-wrapper object with an absent iterator
handle returns the end sentinel without touching any resource; move
construction and move assignment hand the handle to the destination and
leave the source with an absent handle, so that exactly one object owns
the open stream; in particular `next()` on the moved-from object returns
the sentinel. -/
theorem moved_from_lazy_next_sentinel (o src dst : NeoPDFLazy) :
    (o.raw_iter = none → o.next = (none, o)) ∧
    (NeoPDFLazy.moveCtor src).1.raw_iter = src.raw_iter ∧
    (NeoPDFLazy.moveCtor src).2.raw_iter = none ∧
    (NeoPDFLazy.moveAssign dst src).1.raw_iter = src.raw_iter ∧
    (NeoPDFLazy.moveAssign dst src).2.raw_iter = none ∧
    (NeoPDFLazy.moveCtor src).2.next = (none, (NeoPDFLazy.moveCtor src).2) ∧
    (NeoPDFLazy.moveAssign dst src).2.next =
      (none, (NeoPDFLazy.moveAssign dst src).2) := by
  refine ⟨fun h => ?_, rfl, rfl, rfl, rfl, rfl, rfl⟩
  simp [NeoPDFLazy.next, h]

/-- Witness for C10 at a concrete wrapper owning a nonempty stream: after
the move the source's handle is absent and its `next()` returns the
sentinel even though the stream still held a member. -/
theorem moved_from_lazy_next_sentinel_witness :
    ((NeoPDFLazy.mk none).raw_iter = none → (NeoPDFLazy.mk none).next =
      (none, NeoPDFLazy.mk none)) ∧
    (NeoPDFLazy.moveCtor (NeoPDFLazy.mk (some ⟨[sampleGrid], 0⟩))).1.raw_iter =
      (NeoPDFLazy.mk (some ⟨[sampleGrid], 0⟩)).raw_iter ∧
    (NeoPDFLazy.moveCtor (NeoPDFLazy.mk (some ⟨[sampleGrid], 0⟩))).2.raw_iter =
      none ∧
    (NeoPDFLazy.moveAssign (NeoPDFLazy.mk none)
      (NeoPDFLazy.mk (some ⟨[sampleGrid], 0⟩))).1.raw_iter =
      (NeoPDFLazy.mk (some ⟨[sampleGrid], 0⟩)).raw_iter ∧
    (NeoPDFLazy.moveAssign (NeoPDFLazy.mk none)
      (NeoPDFLazy.mk (some ⟨[sampleGrid], 0⟩))).2.raw_iter = none ∧
    (NeoPDFLazy.moveCtor (NeoPDFLazy.mk (some ⟨[sampleGrid], 0⟩))).2.next =
      (none, (NeoPDFLazy.moveCtor (NeoPDFLazy.mk (some ⟨[sampleGrid], 0⟩))).2) ∧
    (NeoPDFLazy.moveAssign (NeoPDFLazy.mk none)
      (NeoPDFLazy.mk (some ⟨[sampleGrid], 0⟩))).2.next =
      (none, (NeoPDFLazy.moveAssign (NeoPDFLazy.mk none)
        (NeoPDFLazy.mk (some ⟨[sampleGrid], 0⟩))).2) :=
  moved_from_lazy_next_sentinel (NeoPDFLazy.mk none)
    (NeoPDFLazy.mk (some ⟨[sampleGrid], 0⟩)) (NeoPDFLazy.mk none)

/-- **C8.** The broadcast force-positive setter on an array of member
handles leaves every handle in exactly the state produced by the
single-handle setter on that element: the array keeps its length, the
i-th result is the single-handle setter applied to the i-th input, and
the per-handle getter subsequently returns the broadcast policy for
every member. -/
theorem set_force_positive_broadcast (hs : List PDFHandle)
    (opt : ForcePositive) :
    (neopdf_pdf_set_force_positive_members hs opt).length = hs.length ∧
    (∀ i h, hs.get? i = some h →
      (neopdf_pdf_set_force_positive_members hs opt).get? i =
        some (neopdf_pdf_set_force_positive h opt)) ∧
    (∀ h', h' ∈ neopdf_pdf_set_force_positive_members hs opt →
      neopdf_pdf_is_force_positive h' = opt) := by
  refine ⟨List.length_map _ _, fun i h hi => ?_, fun h' hm => ?_⟩
  · rw [neopdf_pdf_set_force_positive_members, List.get?_map, hi]; rfl
  · rcases List.mem_map.mp hm with ⟨h0, _, rfl⟩
    rfl

/-- Witness for C8 at a concrete two-handle array: broadcasting
`clipSmall` equals the elementwise single-handle setter, and the getter
reads back `clipSmall` on each member. -/
theorem set_force_positive_broadcast_witness :
    (neopdf_pdf_set_force_positive_members
      [⟨sampleGrid, .noClipping⟩, ⟨sampleGrid, .clipNegative⟩] .clipSmall).length =
      ([⟨sampleGrid, .noClipping⟩, ⟨sampleGrid, .clipNegative⟩] :
        List PDFHandle).length ∧
    (∀ i h, ([⟨sampleGrid, .noClipping⟩, ⟨sampleGrid, .clipNegative⟩] :
        List PDFHandle).get? i = some h →
      (neopdf_pdf_set_force_positive_members
        [⟨sampleGrid, .noClipping⟩, ⟨sampleGrid, .clipNegative⟩] .clipSmall).get? i =
        some (neopdf_pdf_set_force_positive h .clipSmall)) ∧
    (∀ h', h' ∈ neopdf_pdf_set_force_positive_members
        [⟨sampleGrid, .noClipping⟩, ⟨sampleGrid, .clipNegative⟩] .clipSmall →
      neopdf_pdf_is_force_positive h' = .clipSmall) :=
  set_force_positive_broadcast
    [⟨sampleGrid, .noClipping⟩, ⟨sampleGrid, .clipNegative⟩] .clipSmall

/-- `firstSome` only depends on the values of the function on the list's
elements. -/
theorem firstSome_congr (f₁ f₂ : SubGrid → Option ℚ) :
    ∀ l : List SubGrid, (∀ sg ∈ l, f₁ sg = f₂ sg) →
      firstSome f₁ l = firstSome f₂ l
  | [], _ => rfl
  | sg :: sgs, h => by
    rw [firstSome, firstSome, h sg (by simp)]
    cases f₂ sg with
    | some v => rfl
    | none => exact firstSome_congr f₁ f₂ sgs (fun x hx => h x (by simp [hx]))

/-- On one subgrid, the canonical N-D knot evaluation at the default
(leading) coordinates of the A, alpha_s and kT axes equals the 2-D knot
evaluation. -/
theorem evalND_default_axes (sg : SubGrid) (nf f : ℕ) (a s k x q2 : ℚ)
    (ha : sg.nucleons.head? = some a) (hs : sg.alphas.head? = some s)
    (hk : sg.kts.head? = some k) :
    sg.evalND nf f a s k x q2 = sg.eval2D nf f x q2 := by
  rw [SubGrid.evalND, SubGrid.eval2D, indexOf?_head ha, indexOf?_head hs,
    indexOf?_head hk]
  simp [flatIndex]

/-- **C2.** Opening the lazy reader on input that is not a recognized
container yields the explicit absent value (never an exception or a
crash: the open operation is a total function into an option);
opening it on a genuine container holding zero members yields a present
iterator whose first `next()` already returns the end sentinel; the
absent value is distinguishable from that zero-member iterator. -/
theorem lazy_open_non_container (bs : List Tok) :
    (decodeContainer bs = none → neopdf_pdf_load_lazy bs = none) ∧
    (∀ m, decodeContainer bs = some (m, []) →
      neopdf_pdf_load_lazy bs = some ⟨[], 0⟩ ∧
      (neopdf_lazy_iterator_next ⟨[], 0⟩).1 = none) ∧
    (none : Option NeoPDFLazyIterator) ≠ some ⟨[], 0⟩ := by
  exact ⟨fun h => by simp [neopdf_pdf_load_lazy, h],
    fun m h => ⟨by simp [neopdf_pdf_load_lazy, h], rfl⟩,
    by simp⟩

/-- Witness for C2 at concrete inputs: the stream `[rat 0]` is not a
container and opening it yields the absent value, while a genuine
zero-member container opens as a present iterator that is immediately
exhausted. -/
theorem lazy_open_non_container_witness :
    neopdf_pdf_load_lazy [Tok.rat 0] = none ∧
    (neopdf_pdf_load_lazy (encodeContainer sampleMeta []) = some ⟨[], 0⟩ ∧
      (neopdf_lazy_iterator_next ⟨[], 0⟩).1 = none) ∧
    (none : Option NeoPDFLazyIterator) ≠ some ⟨[], 0⟩ :=
  ⟨(lazy_open_non_container [Tok.rat 0]).1 rfl,
    (lazy_open_non_container (encodeContainer sampleMeta [])).2.1 sampleMeta
      (decodeContainer_encodeContainer sampleMeta []),
    (lazy_open_non_container []).2.2⟩

/-- **C6.** A lazy iterator opened on a container holding N members
yields on its (k+1)-th `next()` exactly the k-th member for k < N and
the end sentinel for every k ≥ N; and once a call has returned the
sentinel, every later call returns the sentinel again. -/
theorem lazy_iterator_exhaustion (bs : List Tok) (it : NeoPDFLazyIterator)
    (h : neopdf_pdf_load_lazy bs = some it) :
    (∀ k, lazyNth it k = it.members.get? k) ∧
    (∀ k, it.members.length ≤ k → lazyNth it k = none) ∧
    (∀ k j, lazyNth it k = none → k ≤ j → lazyNth it j = none) := by
  have hc : it.cursor = 0 := by
    rcases hdec : decodeContainer bs with _ | p
    · simp [neopdf_pdf_load_lazy, hdec] at h
    · simp [neopdf_pdf_load_lazy, hdec] at h
      rw [← h]
  obtain ⟨ms, c⟩ := it
  simp only at hc
  subst hc
  refine ⟨fun k => by simpa using lazyNth_eq_get ms 0 k,
    fun k hk => ?_, fun k j hk hkj => ?_⟩
  · rw [lazyNth_eq_get]
    exact List.get?_eq_none.mpr (by simpa using hk)
  · rw [lazyNth_eq_get] at hk ⊢
    have hlen := List.get?_eq_none.mp hk
    exact List.get?_eq_none.mpr (by omega)

/-- Witness for C6 at a concrete one-member container: the first
`next()` yields the member, the second returns the sentinel, and the
sentinel persists afterwards. -/
theorem lazy_iterator_exhaustion_witness :
    (∀ k, lazyNth ⟨[sampleGrid], 0⟩ k =
      (NeoPDFLazyIterator.mk [sampleGrid] 0).members.get? k) ∧
    (∀ k, (NeoPDFLazyIterator.mk [sampleGrid] 0).members.length ≤ k →
      lazyNth ⟨[sampleGrid], 0⟩ k = none) ∧
    (∀ k j, lazyNth ⟨[sampleGrid], 0⟩ k = none → k ≤ j →
      lazyNth ⟨[sampleGrid], 0⟩ j = none) :=
  lazy_iterator_exhaustion (encodeContainer sampleMeta [sampleGrid])
    ⟨[sampleGrid], 0⟩
    (by simp [neopdf_pdf_load_lazy, decodeContainer_encodeContainer])

/-- **C1.** Round trip: when a built collection compresses successfully,
eager reload returns the metadata and exactly the members, lazy reload
yields exactly the same members in order, and every (pid, x, Q2) query
on a reloaded member returns the same value as the same query on the
in-memory member it was built from, within 1e-12 relative tolerance. -/
theorem roundtrip_preserves_xfxQ2 (meta : MetaData) (coll : List Grid)
    (bytes : List Tok) (h : neopdf_grid_compress meta coll = .ok bytes) :
    ∃ ms it,
      neopdf_pdf_load_all bytes = some (meta, ms) ∧
      neopdf_pdf_load_lazy bytes = some it ∧
      (∀ k, lazyNth it k = ms.get? k) ∧
      ∀ i g g₀ pid x q2 v v', ms.get? i = some g → coll.get? i = some g₀ →
        g.xfxQ2 pid x q2 = some v' → g₀.xfxQ2 pid x q2 = some v →
        |v' - v| ≤ 1 / 10 ^ 12 * |v| := by
  have hbytes : bytes = encodeContainer meta coll := by
    by_cases h1 : coll.isEmpty
    · simp [neopdf_grid_compress, h1] at h
    · by_cases h2 : meta.num_members = coll.length
      · simp [neopdf_grid_compress, h1, h2] at h
        exact h.symm
      · simp [neopdf_grid_compress, h1, h2] at h
  subst hbytes
  refine ⟨coll, ⟨coll, 0⟩, ?_, ?_, ?_, ?_⟩
  · simp [neopdf_pdf_load_all, decodeContainer_encodeContainer]
  · simp [neopdf_pdf_load_lazy, decodeContainer_encodeContainer]
  · intro k
    simpa using lazyNth_eq_get coll 0 k
  · intro i g g₀ pid x q2 v v' hg hg₀ hv' hv
    rw [hg₀] at hg
    injection hg with hgg
    subst hgg
    rw [hv'] at hv
    injection hv with hvv
    subst hvv
    rw [sub_self, abs_zero]
    positivity

/-- Witness for C1 at a concrete one-member collection that compresses
successfully. -/
theorem roundtrip_preserves_xfxQ2_witness :
    ∃ ms it,
      neopdf_pdf_load_all (encodeContainer sampleMeta [sampleGrid]) =
        some (sampleMeta, ms) ∧
      neopdf_pdf_load_lazy (encodeContainer sampleMeta [sampleGrid]) =
        some it ∧
      (∀ k, lazyNth it k = ms.get? k) ∧
      ∀ i g g₀ pid x q2 v v', ms.get? i = some g →
        ([sampleGrid] : List Grid).get? i = some g₀ →
        g.xfxQ2 pid x q2 = some v' → g₀.xfxQ2 pid x q2 = some v →
        |v' - v| ≤ 1 / 10 ^ 12 * |v| :=
  roundtrip_preserves_xfxQ2 sampleMeta [sampleGrid]
    (encodeContainer sampleMeta [sampleGrid]) (by rfl)

/-- **C4.** The 2-D evaluation equals the canonical N-D evaluation
applied to the ordered coordinate vector `[A, alpha_s, kT, x, Q2]` with
the default (leading-knot) values supplied for the three unused axes:
the 2-D form adds no interpolation content of its own. -/
theorem xfxQ2_eq_xfxQ2_ND_defaults (g : Grid) (a s k : ℚ)
    (h : ∀ sg ∈ g.subgrids, sg.nucleons.head? = some a ∧
      sg.alphas.head? = some s ∧ sg.kts.head? = some k) :
    ∀ pid x q2, g.xfxQ2 pid x q2 = g.xfxQ2_ND pid a s k x q2 := by
  intro pid x q2
  cases hf : g.flavors.indexOf? pid with
  | none => simp [Grid.xfxQ2, Grid.xfxQ2_ND, hf]
  | some f =>
    simp only [Grid.xfxQ2, Grid.xfxQ2_ND, hf, Option.some_bind]
    exact firstSome_congr _ _ g.subgrids
      (fun sg hsg => (evalND_default_axes sg g.flavors.length f a s k x q2
        (h sg hsg).1 (h sg hsg).2.1 (h sg hsg).2.2).symm)

/-- Witness for C4 at a concrete member and query point; the common
value is also evaluated concretely. -/
theorem xfxQ2_eq_xfxQ2_ND_defaults_witness :
    sampleGrid.xfxQ2 1 5 10 = sampleGrid.xfxQ2_ND 1 1 1 0 5 10 ∧
    sampleGrid.xfxQ2 1 5 10 = some 8 :=
  ⟨xfxQ2_eq_xfxQ2_ND_defaults sampleGrid 1 1 0 (by decide) 1 5 10,
    by decide⟩

end NeoPDF
